import Mathlib

/-!
Verification of the `gobuild` package (cdvelop/gobuild), a concurrency-safe
wrapper around an external Go compiler process.

The development embeds, straight from the Go sources:
* the pure argument-assembly algorithm `buildArguments` with its linker-flag
  diversion scan (src/compiler.go, lines 68-101);
* the filesystem commit/rollback protocol `renameOutputFile` /
  `cleanupTempFile` (src/unnamed/part_004, lines 19-48), over an explicit
  association-list filesystem;
* the synchronous compilation pipeline `compileSync` (src/compiler.go,
  lines 27-65), with the external process abstracted by its observable
  behaviour (start error, wait error, combined output);
* the orchestrator entry points `CompileProgram`, `Cancel`, `IsCompiling`
  (src/gobuild.go, lines 50-127), sequentialized: the model records what a
  single call does to the active-job slot and which result is delivered on
  which channel, with the spawned goroutine's effects computed in place.
-/

namespace Gobuild

/-- Go `strings.HasPrefix s pre`, computed over the underlying character
lists so that it evaluates inside the kernel. -/
def strStarts (s pre : String) : Bool := List.isPrefixOf pre.data s.data

/-- Go `strings.Contains arg "="`: the source only ever tests for the
single character `=`, so containment of one character is modelled. -/
def strHasEq (s : String) : Bool := s.data.contains '='

/-- Substring test on character lists (used to state what a diagnostic
payload does or does not contain). -/
def hasSubList (pat : List Char) : List Char → Bool
  | [] => List.isPrefixOf pat []
  | c :: rest => List.isPrefixOf pat (c :: rest) || hasSubList pat rest

/-- Substring test on strings: `strHasSub pat s` is true iff `pat` occurs
contiguously inside `s`. -/
def strHasSub (pat s : String) : Bool := hasSubList pat.data s.data

/-- Go error values as this package builds them: `errors.New` leaves, and
`errors.Join` of exactly two errors (the only arity the sources use). -/
inductive GoErr where
  | new : String → GoErr
  | join2 : GoErr → GoErr → GoErr
deriving DecidableEq

/-- The `Error()` text of a modelled Go error: `errors.Join` renders the
two joined errors' messages separated by a newline. -/
def GoErr.text : GoErr → String
  | .new s => s
  | .join2 a b => a.text ++ "\n" ++ b.text

/-- The configuration record (src/config.go).  `CompilingArguments`, a Go
`func() []string` that is `nil` or returns a list, is modelled by the
`Option` of the list it returns on this trigger; the optional `Writer`
(log destination) and `Callback` are modelled by presence flags, which is
all the verified claims depend on.  `Timeout` and `Env` play no role in
the claims and are omitted. -/
structure Config where
  Command : String
  MainFilePath : String
  OutName : String
  Extension : String
  CompilingArguments : Option (List String)
  OutFolder : String
  hasWriter : Bool
  hasCallback : Bool
deriving DecidableEq

/-- Final artifact file name, `c.OutName + c.Extension` (src/gobuild.go,
`New`, line 41). -/
def outFileName (cfg : Config) : String := cfg.OutName ++ cfg.Extension

/-- Go `path.Join dir name` for the arguments this package passes it:
a directory and a file name, already clean, joined with one slash. -/
def pathJoin (dir name : String) : String := dir ++ "/" ++ name

/-- Per-job temp artifact name,
`fmt.Sprintf("%s_temp_%d%s", OutName, time.Now().UnixNano(), Extension)`
(src/gobuild.go, lines 64-67). `nano` is the nanosecond timestamp drawn by
this trigger; `%d` on it is decimal rendering, i.e. `Nat.repr`. -/
def tempFileNameOf (cfg : Config) (nano : Nat) : String :=
  cfg.OutName ++ "_temp_" ++ Nat.repr nano ++ cfg.Extension

/-- The argument scan of `buildArguments` (src/compiler.go, lines 74-91).
Walking the caller-supplied arguments left to right it returns the pair
(pass-through sequence appended to `buildArgs`, accumulated `ldFlags`).
Branching mirrors the source: a token with prefix `-X` that is exactly
`-X` and has a successor consumes the successor with it into `ldFlags`
(the `i++` branch); any other token with prefix `-X` goes to `ldFlags`
alone (the source splits this case on `strings.Contains(arg, "=")`, but
both of those branches append `arg` to `ldFlags`); every remaining token
is appended to the pass-through sequence. -/
def scanArgs : List String → List String × List String
  | [] => ([], [])
  | [arg] =>
    if strStarts arg "-X" then ([], [arg]) else ([arg], [])
  | arg :: next :: rest2 =>
    if strStarts arg "-X" then
      if arg = "-X" then
        let r := scanArgs rest2
        (r.1, arg :: next :: r.2)
      else
        let r := scanArgs (next :: rest2)
        (r.1, arg :: r.2)
    else
      let r := scanArgs (next :: rest2)
      (arg :: r.1, r.2)

/-- `buildArguments` (src/compiler.go, lines 68-101): starts from
`["build"]`, interleaves the scan above (pass-through tokens extend
`buildArgs` while `-X` material accumulates in `ldFlags`), then appends
one `-ldflags=` token joining the accumulator with single spaces when the
accumulator is non-empty (`strings.Join(ldFlags, " ")`), and finally
`-o`, the temp artifact path and the entry point path. -/
def buildArguments (cfg : Config) (tempFileName : String) : List String :=
  let scanned :=
    match cfg.CompilingArguments with
    | some args => scanArgs args
    | none => ([], [])
  let buildArgs := "build" :: scanned.1
  let buildArgs :=
    if scanned.2.length > 0 then
      buildArgs ++ ["-ldflags=" ++ String.intercalate " " scanned.2]
    else buildArgs
  buildArgs ++ ["-o", pathJoin cfg.OutFolder tempFileName, cfg.MainFilePath]

/-- Formalization of the claims' notion of a recognized linker-symbol
flag occurring in the list: either the two-token shape, a bare `-X`
immediately followed by its `key=value` payload (a token containing `=`),
or the single-token shape, a token with prefix `-X` that itself contains
`=`.  This follows the claim wording and is compared against what the
scan actually diverts. -/
def hasRecognizedLinkerFlag : List String → Bool
  | [] => false
  | a :: rest =>
    (a == "-X" && (match rest with | b :: _ => strHasEq b | [] => false))
      || (strStarts a "-X" && strHasEq a)
      || hasRecognizedLinkerFlag rest

/-- One file of the modelled filesystem: its content together with its
modification time. -/
structure FileData where
  content : String
  mtime : Nat
deriving DecidableEq

/-- The filesystem visible to the package: an association list from path
to file data (first binding wins). -/
abbrev FS := List (String × FileData)

/-- Path lookup, modelling `os.Stat` succeeding exactly on present paths. -/
def fsLookup (fs : FS) (p : String) : Option FileData :=
  match fs with
  | [] => none
  | (q, f) :: rest => if q = p then some f else fsLookup rest p

/-- Path removal, modelling `os.Remove` on a present path. -/
def fsRemove (fs : FS) (p : String) : FS :=
  match fs with
  | [] => []
  | (q, f) :: rest => if q = p then fsRemove rest p else (q, f) :: fsRemove rest p

/-- Binding a path to file data (the destination side of a rename). -/
def fsSet (fs : FS) (p : String) (f : FileData) : FS := (p, f) :: fsRemove fs p

/-- `cleanupTempFile` (src/unnamed/part_004, lines 40-48): stat the temp
path; when it exists remove it, swallowing any removal error; otherwise do
nothing. -/
def cleanupTempFile (cfg : Config) (tempFileName : String) (fs : FS) : FS :=
  let tempFilePath := pathJoin cfg.OutFolder tempFileName
  match fsLookup fs tempFilePath with
  | some _ => fsRemove fs tempFilePath
  | none => fs

/-- `renameOutputFile` (src/unnamed/part_004, lines 19-36): `os.Rename`
the temp path onto the final path.  A missing source makes the rename
fail with a link error, wrapped with the stage tag; on success the temp
binding moves onto the final name atomically (rename preserves the file's
data, including its modification time). -/
def renameOutputFile (cfg : Config) (tempFileName : String) (fs : FS) :
    Option GoErr × FS :=
  let tempPath := pathJoin cfg.OutFolder tempFileName
  let finalPath := pathJoin cfg.OutFolder (outFileName cfg)
  match fsLookup fs tempPath with
  | none =>
    (some (GoErr.join2 (GoErr.new "renameOutputFile")
      (GoErr.new "no such file or directory")), fs)
  | some f => (none, fsSet (fsRemove fs tempPath) finalPath f)

/-- Observable behaviour of one external compiler process: whether
`cmd.Start` fails (setup failure), whether `cmd.Wait` reports an error
(non-zero exit, kill on cancellation, or deadline expiry), and the
combined stdout+stderr text the process produced. -/
structure ProcResult where
  startErr : Option String
  waitErr : Option String
  output : String
deriving DecidableEq

/-- `compileSync` (src/compiler.go, lines 27-65) for one job, over the
filesystem as it stands when the process has finished (so `fs` already
contains whatever the process wrote, in particular the temp artifact on
a run that got far enough).  The pipe acquisitions (`StderrPipe`,
`StdoutPipe`) are OS resource steps assumed to succeed.  Returns the
error handed back (`errors.Join` of the stage tag `compileSync` with the
underlying error where one occurs), the resulting filesystem, and the
text copied to the configured `Writer` (empty when no writer is set: the
source only spawns the copying goroutines when `h.config.Writer != nil`,
discarding the output otherwise). -/
def compileSync (cfg : Config) (tempFile : String) (proc : ProcResult) (fs : FS) :
    Option GoErr × FS × String :=
  let errTag := GoErr.new "compileSync"
  match proc.startErr with
  | some e => (some (GoErr.join2 errTag (GoErr.new e)), fs, "")
  | none =>
    let written := if cfg.hasWriter then proc.output else ""
    match proc.waitErr with
    | some e =>
      (some (GoErr.join2 errTag (GoErr.new e)),
        cleanupTempFile cfg tempFile fs, written)
    | none =>
      let r := renameOutputFile cfg tempFile fs
      (r.1, r.2, written)

/-- An active `compilation` record (src/gobuild.go, lines 12-18).  The
process handle, context-cancel closure, done channel and start time carry
no data the claims inspect; `jobId` models the record's identity (the Go
side compares `h.active == comp` by pointer and invokes `cancel()` through
the handle), and `tempFile` is the job's unique temp artifact name. -/
structure compilation where
  tempFile : String
  jobId : Nat
deriving DecidableEq

/-- The orchestrator's mutable state: the active-job slot guarded by
`h.mu` (src/gobuild.go, lines 21-29). -/
structure GoBuild where
  active : Option compilation
deriving DecidableEq

/-- The conditional slot clear `if h.active == comp { h.active = nil }`
run after a job finishes (src/gobuild.go, lines 87-89 and 100-102). -/
def clearIfActive (active : Option compilation) (comp : compilation) :
    Option compilation :=
  if active = some comp then none else active

/-- Everything one `CompileProgram` call produces in the sequential
model: the value returned to the caller, the result delivered through the
callback (`none` when the callback channel is unused), the ids of
previously active jobs whose `cancel()` was invoked, the active-job slot
as the call returns, the slot after the job's own cleanup has also run
(these differ only in asynchronous mode, where the goroutine outlives the
call), the filesystem and the text written to the writer. -/
structure CompileOutcome where
  returned : Option GoErr
  callbackResult : Option (Option GoErr)
  cancelledPrev : List Nat
  stateAtReturn : GoBuild
  stateAfterJob : GoBuild
  fs : FS
  writerOut : String
deriving DecidableEq

/-- `CompileProgram` (src/gobuild.go, lines 50-106), sequentialized for a
single call with no concurrent interference: under the lock it cancels
and evicts whatever job is active, creates the new job with a fresh temp
name derived from this trigger's `nano` timestamp, and installs it; then
either detaches (callback configured: the caller gets `nil` back at once
and the goroutine later hands `compileSync`'s result to the callback and
clears the slot) or runs `compileSync` inline and returns its result
after clearing the slot.  Both clears are the guarded
`if h.active == comp` write, which in this no-interference model still
sees `comp` in the slot. -/
def CompileProgram (cfg : Config) (st : GoBuild) (newJobId nano : Nat)
    (proc : ProcResult) (fs : FS) : CompileOutcome :=
  let cancelled : List Nat :=
    match st.active with
    | some c => [c.jobId]
    | none => []
  let comp : compilation := { tempFile := tempFileNameOf cfg nano, jobId := newJobId }
  let r := compileSync cfg comp.tempFile proc fs
  let cleared : GoBuild := { active := clearIfActive (some comp) comp }
  if cfg.hasCallback then
    { returned := none, callbackResult := some r.1, cancelledPrev := cancelled,
      stateAtReturn := { active := some comp }, stateAfterJob := cleared,
      fs := r.2.1, writerOut := r.2.2 }
  else
    { returned := r.1, callbackResult := none, cancelledPrev := cancelled,
      stateAtReturn := cleared, stateAfterJob := cleared,
      fs := r.2.1, writerOut := r.2.2 }

/-- What one `Cancel` call produces: the returned value, the state it
leaves, and the ids of jobs whose `cancel()` it invoked. -/
structure CancelOutcome where
  returned : Option GoErr
  state : GoBuild
  cancelledIds : List Nat
deriving DecidableEq

/-- `Cancel` (src/gobuild.go, lines 109-120): under the lock, when a job
is active invoke its cancellation handle, clear the slot and return
`nil`; when nothing is active, return `nil` untouched. -/
def Cancel (st : GoBuild) : CancelOutcome :=
  match st.active with
  | some c => { returned := none, state := { active := none }, cancelledIds := [c.jobId] }
  | none => { returned := none, state := st, cancelledIds := [] }

/-- `IsCompiling` (src/gobuild.go, lines 123-127). -/
def IsCompiling (st : GoBuild) : Bool := st.active.isSome

/-- Decimal re-parse of a character list (digit chars under the usual
code-point encoding), used to invert `Nat.repr`. -/
def decVal (l : List Char) : Nat :=
  l.foldl (fun acc c => 10 * acc + (c.toNat - 48)) 0

/-- A concrete configuration used by the closed witness instances. -/
def cfgWith (args : Option (List String)) : Config :=
  { Command := "go", MainFilePath := "main.go", OutName := "app",
    Extension := ".exe", CompilingArguments := args, OutFolder := "build",
    hasWriter := false, hasCallback := false }

/-- A failing process run with combined output `boom`, for the error
payload counterexample. -/
def procBoom : ProcResult :=
  { startErr := none, waitErr := some "exit status 1", output := "boom" }

/-- The witness configuration with a log writer attached. -/
def cfgWriter : Config := { cfgWith none with hasWriter := true }

/-- A concrete filesystem for the failure-isolation witness: the job's
temp artifact (as the process left it) and a previously committed final
artifact. -/
def fs0 : FS :=
  [(pathJoin "build" (tempFileNameOf (cfgWith none) 1),
      { content := "partial", mtime := 7 }),
    (pathJoin "build" "app.exe", { content := "old", mtime := 3 })]

/-! ### Equation lemmas for the argument scan -/

/-- Scanning the empty argument list. -/
theorem scanArgs_nil : scanArgs [] = ([], []) := rfl

/-- A final `-X`-prefixed token is diverted alone. -/
theorem scanArgs_single_X (arg : String) (h : strStarts arg "-X" = true) :
    scanArgs [arg] = ([], [arg]) := by
  simp [scanArgs, h]

/-- A final token without the `-X` prefix passes through. -/
theorem scanArgs_single_noX (arg : String) (h : strStarts arg "-X" = false) :
    scanArgs [arg] = ([arg], []) := by
  simp [scanArgs, h]

/-- A bare `-X` with a successor consumes the successor with it. -/
theorem scanArgs_pair_X (next : String) (rest2 : List String) :
    scanArgs ("-X" :: next :: rest2) =
      ((scanArgs rest2).1, "-X" :: next :: (scanArgs rest2).2) := by
  simp [scanArgs, show strStarts "-X" "-X" = true by decide]

/-- A non-bare `-X`-prefixed token with a successor is diverted alone. -/
theorem scanArgs_cons_X_single (arg next : String) (rest2 : List String)
    (h : strStarts arg "-X" = true) (hne : arg ≠ "-X") :
    scanArgs (arg :: next :: rest2) =
      ((scanArgs (next :: rest2)).1, arg :: (scanArgs (next :: rest2)).2) := by
  simp [scanArgs, h, hne]

/-- A token without the `-X` prefix passes through. -/
theorem scanArgs_cons_noX (arg next : String) (rest2 : List String)
    (h : strStarts arg "-X" = false) :
    scanArgs (arg :: next :: rest2) =
      (arg :: (scanArgs (next :: rest2)).1, (scanArgs (next :: rest2)).2) := by
  simp [scanArgs, h]

/-! ### Structural properties of the scan -/

/-- When no token carries the `-X` prefix the scan diverts nothing. -/
theorem scan_no_flag :
    ∀ args : List String, (∀ a ∈ args, strStarts a "-X" = false) →
      scanArgs args = (args, []) := by
  intro args
  induction args using scanArgs.induct with
  | case1 => intro _; rfl
  | case2 arg hpre => intro h; exact absurd (h arg (by simp)) (by simp [hpre])
  | case3 arg hpre =>
    intro _
    exact scanArgs_single_noX arg (by simpa using hpre)
  | case4 next rest2 hpre ih =>
    intro h
    exact absurd (h "-X" (by simp)) (by simp [hpre])
  | case5 arg next rest2 hpre hne ih =>
    intro h
    exact absurd (h arg (by simp)) (by simp [hpre])
  | case6 arg next rest2 hpre ih =>
    intro h
    rw [scanArgs_cons_noX arg next rest2 (by simpa using hpre),
      ih (fun a ha => h a (by simp [ha]))]

/-- Any `-X`-prefixed token in the input makes the accumulator non-empty. -/
theorem scan_flag_ne_nil :
    ∀ args : List String, (∃ a ∈ args, strStarts a "-X" = true) →
      (scanArgs args).2 ≠ [] := by
  intro args
  induction args using scanArgs.induct with
  | case1 => rintro ⟨a, ha, _⟩; exact absurd ha (List.not_mem_nil a)
  | case2 arg hpre => intro _; simp [scanArgs_single_X arg hpre]
  | case3 arg hpre =>
    rintro ⟨a, ha, hs⟩
    have : a = arg := by simpa using ha
    subst this
    exact absurd hs (by simp [hpre])
  | case4 next rest2 hpre ih => intro _; simp [scanArgs_pair_X]
  | case5 arg next rest2 hpre hne ih =>
    intro _
    simp [scanArgs_cons_X_single arg next rest2 hpre hne]
  | case6 arg next rest2 hpre ih =>
    rintro ⟨a, ha, hs⟩
    have hmem : a ∈ next :: rest2 := by
      rcases List.mem_cons.mp ha with h1 | h1
      · subst h1; exact absurd hs (by simpa using hpre)
      · exact h1
    rw [scanArgs_cons_noX arg next rest2 (by simpa using hpre)]
    exact ih ⟨a, hmem, hs⟩

/-- A recognized-shape linker flag in the input yields an `-X`-prefixed
token in the input. -/
theorem recognized_exists :
    ∀ args : List String, hasRecognizedLinkerFlag args = true →
      ∃ a ∈ args, strStarts a "-X" = true := by
  intro args
  induction args with
  | nil => intro h; simp [hasRecognizedLinkerFlag] at h
  | cons a rest ih =>
    intro h
    simp only [hasRecognizedLinkerFlag, Bool.or_eq_true, Bool.and_eq_true] at h
    rcases h with (⟨heq, _⟩ | ⟨hpre, _⟩) | hrest
    · have ha : a = "-X" := by simpa using heq
      subst ha
      exact ⟨"-X", by simp, by decide⟩
    · exact ⟨a, by simp, hpre⟩
    · rcases ih hrest with ⟨b, hb, hs⟩
      exact ⟨b, by simp [hb], hs⟩

/-- The pass-through sequence is an order-preserving subsequence of the
input. -/
theorem scan_fst_sublist : ∀ args : List String, List.Sublist (scanArgs args).1 args := by
  intro args
  induction args using scanArgs.induct with
  | case1 => exact List.Sublist.refl []
  | case2 arg hpre => simp [scanArgs_single_X arg hpre]
  | case3 arg hpre => simp [scanArgs_single_noX arg (by simpa using hpre)]
  | case4 next rest2 hpre ih =>
    rw [scanArgs_pair_X]
    exact (ih.cons next).cons "-X"
  | case5 arg next rest2 hpre hne ih =>
    rw [scanArgs_cons_X_single arg next rest2 hpre hne]
    exact ih.cons arg
  | case6 arg next rest2 hpre ih =>
    rw [scanArgs_cons_noX arg next rest2 (by simpa using hpre)]
    exact ih.cons₂ arg

/-- The diverted sequence is an order-preserving subsequence of the
input. -/
theorem scan_snd_sublist : ∀ args : List String, List.Sublist (scanArgs args).2 args := by
  intro args
  induction args using scanArgs.induct with
  | case1 => exact List.Sublist.refl []
  | case2 arg hpre => simp [scanArgs_single_X arg hpre]
  | case3 arg hpre => simp [scanArgs_single_noX arg (by simpa using hpre)]
  | case4 next rest2 hpre ih =>
    rw [scanArgs_pair_X]
    exact (ih.cons₂ next).cons₂ "-X"
  | case5 arg next rest2 hpre hne ih =>
    rw [scanArgs_cons_X_single arg next rest2 hpre hne]
    exact ih.cons₂ arg
  | case6 arg next rest2 hpre ih =>
    rw [scanArgs_cons_noX arg next rest2 (by simpa using hpre)]
    exact ih.cons arg

/-- The scan partitions the input: no token is lost or duplicated. -/
theorem scan_length_split :
    ∀ args : List String,
      (scanArgs args).1.length + (scanArgs args).2.length = args.length := by
  intro args
  induction args using scanArgs.induct with
  | case1 => rfl
  | case2 arg hpre => simp [scanArgs_single_X arg hpre]
  | case3 arg hpre => simp [scanArgs_single_noX arg (by simpa using hpre)]
  | case4 next rest2 hpre ih =>
    rw [scanArgs_pair_X]
    simp only [List.length_cons]
    omega
  | case5 arg next rest2 hpre hne ih =>
    rw [scanArgs_cons_X_single arg next rest2 hpre hne]
    simp only [List.length_cons] at ih ⊢
    omega
  | case6 arg next rest2 hpre ih =>
    rw [scanArgs_cons_noX arg next rest2 (by simpa using hpre)]
    simp only [List.length_cons] at ih ⊢
    omega

/-- Every pass-through token lacks the `-X` prefix. -/
theorem scan_fst_noX :
    ∀ args : List String, ∀ a ∈ (scanArgs args).1, strStarts a "-X" = false := by
  intro args
  induction args using scanArgs.induct with
  | case1 => intro a ha; exact absurd ha (List.not_mem_nil a)
  | case2 arg hpre => simp [scanArgs_single_X arg hpre]
  | case3 arg hpre =>
    simp only [scanArgs_single_noX arg (by simpa using hpre), List.mem_singleton]
    intro a ha
    subst ha
    simpa using hpre
  | case4 next rest2 hpre ih =>
    rw [scanArgs_pair_X]
    exact ih
  | case5 arg next rest2 hpre hne ih =>
    rw [scanArgs_cons_X_single arg next rest2 hpre hne]
    exact ih
  | case6 arg next rest2 hpre ih =>
    rw [scanArgs_cons_noX arg next rest2 (by simpa using hpre)]
    intro a ha
    rcases List.mem_cons.mp ha with h1 | h1
    · subst h1; simpa using hpre
    · exact ih a h1

/-- Every `-X`-prefixed input token ends up in the diverted sequence. -/
theorem scan_x_mem_snd :
    ∀ args : List String, ∀ a ∈ args, strStarts a "-X" = true →
      a ∈ (scanArgs args).2 := by
  intro args
  induction args using scanArgs.induct with
  | case1 => intro a ha; exact absurd ha (List.not_mem_nil a)
  | case2 arg hpre =>
    intro a ha _
    simp only [scanArgs_single_X arg hpre]
    simpa using ha
  | case3 arg hpre =>
    intro a ha hs
    have : a = arg := by simpa using ha
    subst this
    exact absurd hs (by simpa using hpre)
  | case4 next rest2 hpre ih =>
    intro a ha hs
    rw [scanArgs_pair_X]
    rcases List.mem_cons.mp ha with h1 | h1
    · subst h1; simp
    · rcases List.mem_cons.mp h1 with h2 | h2
      · subst h2; simp
      · simp only [List.mem_cons]
        exact Or.inr (Or.inr (ih a h2 hs))
  | case5 arg next rest2 hpre hne ih =>
    intro a ha hs
    rw [scanArgs_cons_X_single arg next rest2 hpre hne]
    rcases List.mem_cons.mp ha with h1 | h1
    · subst h1; simp
    · simp only [List.mem_cons]
      exact Or.inr (ih a h1 hs)
  | case6 arg next rest2 hpre ih =>
    intro a ha hs
    rw [scanArgs_cons_noX arg next rest2 (by simpa using hpre)]
    rcases List.mem_cons.mp ha with h1 | h1
    · subst h1; exact absurd hs (by simpa using hpre)
    · exact ih a h1 hs

/-! ### Claims C1, C2, C3: the argument builder -/

/-- Claim C1: for every caller-supplied argument sequence containing at
least one linker-symbol flag in a recognized shape (two-token `-X` plus
`key=value` payload, or single token with `-X` prefix containing `=`),
`buildArguments` emits exactly one consolidated `-ldflags=` token, whose
value is all diverted tokens joined by single spaces in encounter order,
placed immediately before `-o`; the full command is pinned as the build
token, the pass-through tokens in order, the consolidated flag, `-o`,
the temp artifact path, and the entry point path. -/
theorem C1_consolidated_ldflags (cfg : Config) (args : List String)
    (tempFileName : String)
    (hargs : cfg.CompilingArguments = some args)
    (hflag : hasRecognizedLinkerFlag args = true) :
    (scanArgs args).2 ≠ [] ∧
    buildArguments cfg tempFileName =
      "build" :: (scanArgs args).1 ++
        ("-ldflags=" ++ String.intercalate " " (scanArgs args).2) ::
        "-o" :: pathJoin cfg.OutFolder tempFileName :: [cfg.MainFilePath] := by
  have hne := scan_flag_ne_nil args (recognized_exists args hflag)
  refine ⟨hne, ?_⟩
  have hlen : (scanArgs args).2.length > 0 := List.length_pos.mpr hne
  simp only [buildArguments, hargs]
  rw [if_pos hlen]
  simp

/-- Claim C1 witness: a concrete run with one two-token linker flag. -/
theorem C1_witness :
    (cfgWith (some ["-v", "-X", "main.v=1"])).CompilingArguments
        = some ["-v", "-X", "main.v=1"] ∧
    hasRecognizedLinkerFlag ["-v", "-X", "main.v=1"] = true ∧
    buildArguments (cfgWith (some ["-v", "-X", "main.v=1"])) "app_temp_9.exe" =
      ["build", "-v", "-ldflags=-X main.v=1", "-o", "build/app_temp_9.exe",
        "main.go"] := by
  refine ⟨rfl, by decide, ?_⟩
  have h := (C1_consolidated_ldflags (cfgWith (some ["-v", "-X", "main.v=1"]))
    ["-v", "-X", "main.v=1"] "app_temp_9.exe" rfl (by decide)).2
  rw [h]
  decide

/-- Claim C2 counterexample: the sequence `["-X"]` contains zero
linker-symbol flags in the claims' recognized shapes (a bare `-X` with no
payload token is neither shape), yet the built command is not the
pass-through form `[build, -X, -o, <tempPath>, <entryPath>]`: the scan
still diverts the bare `-X` and emits `-ldflags=-X`. -/
theorem C2_counterexample :
    hasRecognizedLinkerFlag ["-X"] = false ∧
    buildArguments (cfgWith (some ["-X"])) "app_temp_9.exe" ≠
      ["build", "-X", "-o", pathJoin "build" "app_temp_9.exe", "main.go"] ∧
    buildArguments (cfgWith (some ["-X"])) "app_temp_9.exe" =
      ["build", "-ldflags=-X", "-o", "build/app_temp_9.exe", "main.go"] := by
  refine ⟨by decide, by decide, by decide⟩

/-- Claim C2 as amended: for every caller-supplied argument sequence in
which no token carries the `-X` prefix (so the scan diverts nothing),
`buildArguments` returns exactly the build token, the supplied arguments
in original order, `-o`, the temp artifact path, and the entry point
path. -/
theorem C2_passthrough (cfg : Config) (args : List String)
    (tempFileName : String)
    (hargs : cfg.CompilingArguments = some args)
    (h : ∀ a ∈ args, strStarts a "-X" = false) :
    buildArguments cfg tempFileName =
      "build" :: args ++
        ["-o", pathJoin cfg.OutFolder tempFileName, cfg.MainFilePath] := by
  have hscan := scan_no_flag args h
  simp only [buildArguments, hargs, hscan]
  simp

/-- Claim C2 witness: a concrete pass-through run. -/
theorem C2_witness :
    (∀ a ∈ ["-v", "-tags", "prod"], strStarts a "-X" = false) ∧
    buildArguments (cfgWith (some ["-v", "-tags", "prod"])) "app_temp_9.exe" =
      ["build", "-v", "-tags", "prod", "-o", "build/app_temp_9.exe",
        "main.go"] := by
  refine ⟨by decide, ?_⟩
  have h := C2_passthrough (cfgWith (some ["-v", "-tags", "prod"]))
    ["-v", "-tags", "prod"] "app_temp_9.exe" rfl (by decide)
  rw [h]
  decide

/-- Claim C3 counterexample: the token `-Xfoo` is in neither recognized
shape (it is not bare `-X` with a payload successor, and it contains no
`=`), yet the scan diverts it into the accumulator instead of passing it
through. -/
theorem C3_counterexample :
    hasRecognizedLinkerFlag ["-Xfoo"] = false ∧
    scanArgs ["-Xfoo"] = ([], ["-Xfoo"]) ∧
    (scanArgs ["-Xfoo"]).1 ≠ ["-Xfoo"] := by
  refine ⟨by decide, by decide, by decide⟩

/-- A token without the `-X` prefix is appended to the pass-through
sequence, for every tail. -/
theorem scan_cons_noX_any (arg : String) (rest : List String)
    (h : strStarts arg "-X" = false) :
    scanArgs (arg :: rest) = (arg :: (scanArgs rest).1, (scanArgs rest).2) := by
  cases rest with
  | nil => simp [scanArgs_single_noX arg h, scanArgs_nil]
  | cons next rest2 => exact scanArgs_cons_noX arg next rest2 h

/-- An `-X`-prefixed token other than bare `-X` is diverted alone, for
every tail. -/
theorem scan_cons_X_alone (arg : String) (rest : List String)
    (h : strStarts arg "-X" = true) (hne : arg ≠ "-X") :
    scanArgs (arg :: rest) = ((scanArgs rest).1, arg :: (scanArgs rest).2) := by
  cases rest with
  | nil => simp [scanArgs_single_X arg h, scanArgs_nil]
  | cons next rest2 => exact scanArgs_cons_X_single arg next rest2 h hne

/-- Claim C3 as amended: the complete diversion rule, as recursion
equations that determine the scan on every input (any list is empty, or
starts with a non-prefixed token, a bare `-X` with a successor, an
`-X`-prefixed token other than bare `-X`, or is exactly `["-X"]`):
every token without the `-X` prefix is appended to the pass-through
sequence with the rest of the scan unchanged; a bare `-X` with a
successor consumes that successor into the accumulator with it, whatever
the successor's content; every other `-X`-prefixed token (including a
trailing bare `-X`) is diverted alone into the accumulator.
Consequently both output sequences preserve the input's relative order,
together they partition the input, every `-X`-prefixed input token lands
in the accumulator and no pass-through token has the prefix. -/
theorem C3_diversion :
    scanArgs [] = ([], []) ∧
    (∀ arg rest, strStarts arg "-X" = false →
      scanArgs (arg :: rest) = (arg :: (scanArgs rest).1, (scanArgs rest).2)) ∧
    (∀ next rest2, scanArgs ("-X" :: next :: rest2) =
      ((scanArgs rest2).1, "-X" :: next :: (scanArgs rest2).2)) ∧
    (∀ arg rest, strStarts arg "-X" = true → arg ≠ "-X" →
      scanArgs (arg :: rest) = ((scanArgs rest).1, arg :: (scanArgs rest).2)) ∧
    scanArgs ["-X"] = ([], ["-X"]) ∧
    (∀ args, (∀ a ∈ (scanArgs args).1, strStarts a "-X" = false) ∧
      List.Sublist (scanArgs args).1 args ∧
      List.Sublist (scanArgs args).2 args ∧
      (scanArgs args).1.length + (scanArgs args).2.length = args.length ∧
      (∀ a ∈ args, strStarts a "-X" = true → a ∈ (scanArgs args).2)) := by
  refine ⟨rfl, ?_, ?_, ?_, by decide, ?_⟩
  · exact fun arg rest h => scan_cons_noX_any arg rest h
  · exact fun next rest2 => scanArgs_pair_X next rest2
  · exact fun arg rest h hne => scan_cons_X_alone arg rest h hne
  · exact fun args => ⟨scan_fst_noX args, scan_fst_sublist args,
      scan_snd_sublist args, scan_length_split args, scan_x_mem_snd args⟩

/-- Claim C3 witness: each diversion equation applied at concrete
tokens — a non-prefixed token passing through, a bare `-X` consuming a
payload-free successor, and a single-token flag diverted alone. -/
theorem C3_witness :
    scanArgs ("-a" :: ["-X", "k"]) =
      ("-a" :: (scanArgs ["-X", "k"]).1, (scanArgs ["-X", "k"]).2) ∧
    scanArgs ("-X" :: "k" :: []) =
      ((scanArgs []).1, "-X" :: "k" :: (scanArgs []).2) ∧
    scanArgs ("-Xv=1" :: []) = ((scanArgs []).1, "-Xv=1" :: (scanArgs []).2) := by
  have h := C3_diversion
  exact ⟨h.2.1 "-a" ["-X", "k"] (by decide), h.2.2.1 "k" [],
    h.2.2.2.1 "-Xv=1" [] (by decide) (by decide)⟩

/-! ### Filesystem lemmas -/

/-- Removing a path makes it absent. -/
theorem fsLookup_fsRemove_self :
    ∀ (fs : FS) (p : String), fsLookup (fsRemove fs p) p = none := by
  intro fs p
  induction fs with
  | nil => rfl
  | cons entry rest ih =>
    obtain ⟨q, f⟩ := entry
    by_cases h : q = p
    · simpa [fsRemove, h] using ih
    · simpa [fsRemove, fsLookup, h] using ih

/-- Removing a path leaves every other path untouched. -/
theorem fsLookup_fsRemove_other :
    ∀ (fs : FS) (p r : String), r ≠ p →
      fsLookup (fsRemove fs p) r = fsLookup fs r := by
  intro fs p r hr
  induction fs with
  | nil => rfl
  | cons entry rest ih =>
    obtain ⟨q, f⟩ := entry
    by_cases h : q = p
    · simp [fsRemove, fsLookup, h, ih,
        show ¬ p = r from fun hh => hr hh.symm]
    · simp [fsRemove, fsLookup, h, ih]

/-- A job's temp artifact path never equals the final artifact path: the
temp name carries the extra `_temp_<token>` material, so the lengths
differ. -/
theorem tempPath_ne_finalPath (cfg : Config) (nano : Nat) :
    pathJoin cfg.OutFolder (tempFileNameOf cfg nano) ≠
      pathJoin cfg.OutFolder (outFileName cfg) := by
  intro h
  have hlen := congrArg String.length h
  simp only [pathJoin, tempFileNameOf, outFileName, String.length_append] at hlen
  have h6 : String.length "_temp_" = 6 := rfl
  omega

/-! ### Claims C5, C6: the failure path of one build -/

/-- Claim C5: whenever the process starts but `Wait` reports failure
(non-zero exit, cancellation kill, or timeout), `compileSync` returns a
non-nil error, deletes the job's temp artifact, and touches nothing else:
every other path — in particular the previously committed final artifact,
its content and modification time — keeps exactly the binding it had, and
the job's temp artifact is absent afterward (no rename is performed). -/
theorem C5_failure_isolation (cfg : Config) (nano : Nat) (proc : ProcResult)
    (fs : FS) (e : String)
    (hstart : proc.startErr = none) (hwait : proc.waitErr = some e) :
    ((compileSync cfg (tempFileNameOf cfg nano) proc fs).1).isSome = true ∧
    fsLookup (compileSync cfg (tempFileNameOf cfg nano) proc fs).2.1
      (pathJoin cfg.OutFolder (tempFileNameOf cfg nano)) = none ∧
    (∀ p, p ≠ pathJoin cfg.OutFolder (tempFileNameOf cfg nano) →
      fsLookup (compileSync cfg (tempFileNameOf cfg nano) proc fs).2.1 p =
        fsLookup fs p) ∧
    fsLookup (compileSync cfg (tempFileNameOf cfg nano) proc fs).2.1
      (pathJoin cfg.OutFolder (outFileName cfg)) =
      fsLookup fs (pathJoin cfg.OutFolder (outFileName cfg)) := by
  have hfs : (compileSync cfg (tempFileNameOf cfg nano) proc fs).2.1 =
      cleanupTempFile cfg (tempFileNameOf cfg nano) fs := by
    simp [compileSync, hstart, hwait]
  have herr : ((compileSync cfg (tempFileNameOf cfg nano) proc fs).1).isSome = true := by
    simp [compileSync, hstart, hwait]
  have habsent : fsLookup (cleanupTempFile cfg (tempFileNameOf cfg nano) fs)
      (pathJoin cfg.OutFolder (tempFileNameOf cfg nano)) = none := by
    unfold cleanupTempFile
    cases hl : fsLookup fs (pathJoin cfg.OutFolder (tempFileNameOf cfg nano)) with
    | none => simp [hl]
    | some f => simp [hl, fsLookup_fsRemove_self]
  have hothers : ∀ p, p ≠ pathJoin cfg.OutFolder (tempFileNameOf cfg nano) →
      fsLookup (cleanupTempFile cfg (tempFileNameOf cfg nano) fs) p =
        fsLookup fs p := by
    intro p hp
    unfold cleanupTempFile
    cases hl : fsLookup fs (pathJoin cfg.OutFolder (tempFileNameOf cfg nano)) with
    | none => simp [hl]
    | some f => simp [hl, fsLookup_fsRemove_other fs _ p hp]
  refine ⟨herr, ?_, ?_, ?_⟩
  · rw [hfs]; exact habsent
  · intro p hp; rw [hfs]; exact hothers p hp
  · rw [hfs]
    exact hothers (pathJoin cfg.OutFolder (outFileName cfg))
      (Ne.symm (tempPath_ne_finalPath cfg nano))

/-- Claim C5 witness: a concrete failed build over a filesystem holding
both a partial temp artifact and a previously committed final artifact. -/
theorem C5_witness :
    procBoom.startErr = none ∧
    procBoom.waitErr = some "exit status 1" ∧
    fsLookup (compileSync (cfgWith none) (tempFileNameOf (cfgWith none) 1)
        procBoom fs0).2.1
      (pathJoin "build" (tempFileNameOf (cfgWith none) 1)) = none ∧
    fsLookup (compileSync (cfgWith none) (tempFileNameOf (cfgWith none) 1)
        procBoom fs0).2.1
      (pathJoin "build" "app.exe") = some { content := "old", mtime := 3 } := by
  have h := C5_failure_isolation (cfgWith none) 1 procBoom fs0 "exit status 1"
    rfl rfl
  exact ⟨rfl, rfl, h.2.1, h.2.2.2.trans (by decide)⟩

/-- Claim C6 counterexample: on a failed build with captured combined
output `boom` and a writer configured, the error handed back is
`errors.Join` of the stage tag with the execution error only — its
rendered text is `compileSync` plus `exit status 1` and does not contain
the captured output, which is streamed to the writer instead. -/
theorem C6_counterexample :
    procBoom.output = "boom" ∧
    (compileSync cfgWriter "app_temp_1.exe" procBoom []).1 =
      some (GoErr.join2 (GoErr.new "compileSync") (GoErr.new "exit status 1")) ∧
    GoErr.text (GoErr.join2 (GoErr.new "compileSync")
      (GoErr.new "exit status 1")) = "compileSync\nexit status 1" ∧
    strHasSub "boom" "compileSync\nexit status 1" = false ∧
    (compileSync cfgWriter "app_temp_1.exe" procBoom []).2.2 = "boom" := by
  refine ⟨rfl, by decide, rfl, by decide, by decide⟩

/-- Claim C6 as amended: on a failed build the error delivered is the
stage tag `compileSync` joined with the underlying execution error (and
nothing else); the captured combined output is written to the configured
`Writer` when one is set, and discarded otherwise, rather than being
concatenated into the error payload. -/
theorem C6_failure_error_payload (cfg : Config) (tempFile : String)
    (proc : ProcResult) (fs : FS) (e : String)
    (hstart : proc.startErr = none) (hwait : proc.waitErr = some e) :
    (compileSync cfg tempFile proc fs).1 =
      some (GoErr.join2 (GoErr.new "compileSync") (GoErr.new e)) ∧
    (compileSync cfg tempFile proc fs).2.2 =
      (if cfg.hasWriter then proc.output else "") := by
  simp [compileSync, hstart, hwait]

/-- Claim C6 witness: the amended payload shape at a concrete failed
run. -/
theorem C6_witness :
    procBoom.startErr = none ∧
    procBoom.waitErr = some "exit status 1" ∧
    (compileSync cfgWriter "t.exe" procBoom []).1 =
      some (GoErr.join2 (GoErr.new "compileSync") (GoErr.new "exit status 1")) ∧
    (compileSync cfgWriter "t.exe" procBoom []).2.2 = "boom" := by
  have h := C6_failure_error_payload cfgWriter "t.exe" procBoom [] "exit status 1"
    rfl rfl
  exact ⟨rfl, rfl, h.1, h.2.trans (by decide)⟩

/-! ### Decimal rendering is injective (for the temp-name uniqueness
claim): `Nat.repr` is inverted by the re-parse `decVal`. -/

/-- The decimal digit characters carry code point `48 + digit`. -/
theorem digitChar_toNat (m : Nat) (h : m < 10) :
    (Nat.digitChar m).toNat = 48 + m := by
  interval_cases m <;> rfl

/-- The accumulator of `Nat.toDigitsCore` is a plain suffix. -/
theorem toDigitsCore_append :
    ∀ (fuel n : Nat) (ds : List Char),
      Nat.toDigitsCore 10 fuel n ds = Nat.toDigitsCore 10 fuel n [] ++ ds := by
  intro fuel
  induction fuel with
  | zero => intro n ds; rfl
  | succ f ih =>
    intro n ds
    simp only [Nat.toDigitsCore]
    by_cases h : n / 10 = 0
    · simp [h]
    · simp only [h, if_false]
      rw [ih (n / 10) (Nat.digitChar (n % 10) :: ds),
        ih (n / 10) [Nat.digitChar (n % 10)]]
      simp

/-- Re-parsing after appending one digit character. -/
theorem decVal_append_digit (l : List Char) (c : Char) :
    decVal (l ++ [c]) = 10 * decVal l + (c.toNat - 48) := by
  simp [decVal, List.foldl_append]

/-- With enough fuel, re-parsing the rendered digits recovers the
number. -/
theorem decVal_toDigitsCore :
    ∀ (fuel n : Nat), n < 10 ^ fuel →
      decVal (Nat.toDigitsCore 10 fuel n []) = n := by
  intro fuel
  induction fuel with
  | zero =>
    intro n hn
    simp only [pow_zero, Nat.lt_one_iff] at hn
    subst hn
    rfl
  | succ f ih =>
    intro n hn
    simp only [Nat.toDigitsCore]
    by_cases h : n / 10 = 0
    · simp only [h, if_true]
      simp only [decVal, List.foldl]
      rw [digitChar_toNat (n % 10) (Nat.mod_lt n (by norm_num))]
      omega
    · rw [if_neg h]
      rw [toDigitsCore_append f (n / 10) [Nat.digitChar (n % 10)]]
      rw [decVal_append_digit]
      have hdiv : n / 10 < 10 ^ f := by
        rw [Nat.div_lt_iff_lt_mul (by norm_num)]
        calc n < 10 ^ (f + 1) := hn
        _ = 10 ^ f * 10 := by ring
      rw [ih (n / 10) hdiv]
      rw [digitChar_toNat (n % 10) (Nat.mod_lt n (by norm_num))]
      omega

/-- `decVal` inverts `Nat.repr`. -/
theorem decVal_repr (n : Nat) : decVal (Nat.repr n).data = n := by
  have hfuel : n < 10 ^ (n + 1) := by
    calc n < 10 ^ n := Nat.lt_pow_self (by norm_num) n
    _ ≤ 10 ^ (n + 1) := Nat.pow_le_pow_right (by norm_num) (Nat.le_succ n)
  have hd : (Nat.repr n).data = Nat.toDigitsCore 10 (n + 1) n [] := rfl
  rw [hd]
  exact decVal_toDigitsCore (n + 1) n hfuel

/-- Distinct numbers render to distinct decimal strings. -/
theorem natRepr_injective (n1 n2 : Nat)
    (h : (Nat.repr n1).data = (Nat.repr n2).data) : n1 = n2 := by
  have hv := congrArg decVal h
  rwa [decVal_repr, decVal_repr] at hv

/-! ### Claim C7: per-job temp-name uniqueness -/

/-- Claim C7: two jobs of the same instance whose trigger-time tokens
differ get distinct temp-artifact names — the name embeds the decimal
rendering of the nanosecond token between fixed surroundings, and that
rendering is injective. -/
theorem C7_temp_names_unique (cfg : Config) (n1 n2 : Nat) (h : n1 ≠ n2) :
    tempFileNameOf cfg n1 ≠ tempFileNameOf cfg n2 := by
  intro heq
  apply h
  have hdata := congrArg String.data heq
  simp only [tempFileNameOf, String.data_append] at hdata
  have h2 := List.append_cancel_right hdata
  have h3 := List.append_cancel_left h2
  exact natRepr_injective n1 n2 h3

/-- Claim C7 witness: two concrete rapid-succession tokens. -/
theorem C7_witness :
    (1 : Nat) ≠ 2 ∧
    tempFileNameOf (cfgWith none) 1 ≠ tempFileNameOf (cfgWith none) 2 :=
  ⟨by decide, C7_temp_names_unique (cfgWith none) 1 2 (by decide)⟩

/-! ### Claims C8, C9, C10: the orchestrator -/

/-- Claim C8: mode selection is exactly the presence of a callback.  With
a callback configured the call returns `nil` to the caller and the job's
terminal result (the `compileSync` outcome) is delivered through the
callback; without one, nothing is delivered through the callback and the
caller's return value itself is the job's result. -/
theorem C8_mode_selection (cfg : Config) (st : GoBuild) (newJobId nano : Nat)
    (proc : ProcResult) (fs : FS) :
    (CompileProgram cfg st newJobId nano proc fs).returned =
      (if cfg.hasCallback then none
       else (compileSync cfg (tempFileNameOf cfg nano) proc fs).1) ∧
    (CompileProgram cfg st newJobId nano proc fs).callbackResult =
      (if cfg.hasCallback then
        some (compileSync cfg (tempFileNameOf cfg nano) proc fs).1
       else none) := by
  cases hcb : cfg.hasCallback <;> simp [CompileProgram, hcb]

/-- Claim C9: `Cancel` always returns `nil`; with an active job it
invokes that job's cancellation handle and clears the slot, and with no
active job it is a no-op (state untouched, nothing cancelled).  The model
is a total function, so no panic is possible. -/
theorem C9_cancel_contract (st : GoBuild) :
    (Cancel st).returned = none ∧
    (Cancel st).state.active = none ∧
    (∀ c, st.active = some c → (Cancel st).cancelledIds = [c.jobId]) ∧
    (st.active = none → (Cancel st).cancelledIds = [] ∧ (Cancel st).state = st) := by
  obtain ⟨a⟩ := st
  cases a with
  | none => exact ⟨rfl, rfl, fun c hc => by simp at hc, fun _ => ⟨rfl, rfl⟩⟩
  | some c =>
    refine ⟨rfl, rfl, fun c' hc => ?_, fun hn => absurd hn (by simp)⟩
    have hcc : c = c' := by simpa using hc
    subst hcc
    rfl

/-- Claim C9 witness: cancelling with and without an active job. -/
theorem C9_witness :
    (Cancel { active := some { tempFile := "t", jobId := 5 } }).returned = none ∧
    (Cancel { active := some { tempFile := "t", jobId := 5 } }).state.active = none ∧
    (Cancel { active := some { tempFile := "t", jobId := 5 } }).cancelledIds = [5] ∧
    (Cancel { active := none }).returned = none ∧
    (Cancel { active := none }).cancelledIds = [] := by
  have h1 := C9_cancel_contract { active := some { tempFile := "t", jobId := 5 } }
  have h2 := C9_cancel_contract { active := none }
  exact ⟨h1.1, h1.2.1, h1.2.2.1 { tempFile := "t", jobId := 5 } rfl, h2.1,
    (h2.2.2.2 rfl).1⟩

/-- Claim C10: in a sequential execution, once a synchronous
`CompileProgram` call (no callback) returns the active slot is empty and
`IsCompiling` reports false, and likewise after `Cancel` returns. -/
theorem C10_idle_after_sync (cfg : Config) (st : GoBuild) (newJobId nano : Nat)
    (proc : ProcResult) (fs : FS) (hsync : cfg.hasCallback = false) :
    (CompileProgram cfg st newJobId nano proc fs).stateAtReturn.active = none ∧
    IsCompiling (CompileProgram cfg st newJobId nano proc fs).stateAtReturn = false ∧
    (Cancel st).state.active = none ∧
    IsCompiling (Cancel st).state = false := by
  have hclear :
      (CompileProgram cfg st newJobId nano proc fs).stateAtReturn.active = none := by
    simp [CompileProgram, hsync, clearIfActive]
  have hcancel : (Cancel st).state.active = none := by
    obtain ⟨a⟩ := st
    cases a <;> simp [Cancel]
  exact ⟨hclear, by simp [IsCompiling, hclear], hcancel,
    by simp [IsCompiling, hcancel]⟩

/-- Claim C10 witness: a concrete synchronous run and a concrete cancel. -/
theorem C10_witness :
    (cfgWith none).hasCallback = false ∧
    (CompileProgram (cfgWith none) { active := none } 1 1 procBoom
      []).stateAtReturn.active = none ∧
    IsCompiling (Cancel ({ active := none } : GoBuild)).state = false := by
  have h := C10_idle_after_sync (cfgWith none) { active := none } 1 1 procBoom [] rfl
  exact ⟨rfl, h.1, h.2.2.2⟩

end Gobuild
